import Mathlib

/-!
Shallow embedding of the EHR API (Django project `E_Health`): the data model
from `mainapp/models.py` and `authuser/models.py`, and the operations from
`mainapp/views.py` and `mainapp/serializers.py`.  The relational store is an
explicit `Store` value, the authenticated caller is an explicit `User`
argument, and the clock is an explicit `now : Int` argument (timestamps are
integers).  Fallible endpoints return `Except Err Store` (or a payload); an
error result corresponds to an early `Response(..., status=4xx)` return in the
view, which performs no write.
-/

/-- User roles, from `authuser.models.User.ROLE_CHOICES`. -/
inductive Role where
  | patient
  | doctor
  | admin
deriving DecidableEq, Repr

/-- A user row, from `authuser.models.User`.  `is_staff` is the Django staff
flag (set on superusers, not by registration); `role` is the custom EHR role
field.  Fields not used by any endpoint modelled here are omitted. -/
structure User where
  id : Nat
  role : Role
  is_staff : Bool
deriving DecidableEq, Repr

/-- Embeds `User.is_patient` from `authuser/models.py`. -/
def User.is_patient (u : User) : Bool := u.role == Role.patient

/-- Embeds `User.is_doctor` from `authuser/models.py`. -/
def User.is_doctor (u : User) : Bool := u.role == Role.doctor

/-- Embeds `User.is_admin` from `authuser/models.py`. -/
def User.is_admin (u : User) : Bool := u.role == Role.admin

/-- Appointment status, from `Appointment.STATUS_CHOICES` in
`mainapp/models.py`. -/
inductive Status where
  | pending
  | confirmed
  | completed
  | cancelled
deriving DecidableEq, Repr

/-- An appointment row, from `mainapp.models.Appointment`.  `patient` and
`doctor` hold user ids (the foreign keys). -/
structure Appointment where
  id : Nat
  patient : Nat
  doctor : Nat
  date_time : Int
  status : Status
  reason : String
  notes : String
  created_at : Int
  updated_at : Int
deriving DecidableEq, Repr

/-- Embeds `Appointment.is_upcoming` from `mainapp/models.py`:
`self.date_time > timezone.now()`. -/
def Appointment.is_upcoming (a : Appointment) (now : Int) : Bool :=
  a.date_time > now

/-- Embeds `Appointment.can_be_cancelled` from `mainapp/models.py`:
`self.status in [pending, confirmed] and self.is_upcoming()`. -/
def Appointment.can_be_cancelled (a : Appointment) (now : Int) : Bool :=
  (a.status == Status.pending || a.status == Status.confirmed) && a.is_upcoming now

/-- A medical record row, from `mainapp.models.MedicalRecord`.  Optional
vitals fields are omitted (no modelled endpoint reads them). -/
structure MedicalRecord where
  id : Nat
  patient : Nat
  doctor : Nat
  appointment : Nat
  symptoms : String
  diagnosis : String
  created_at : Int
deriving DecidableEq, Repr

/-- A patient profile row, from `mainapp.models.PatientProfile` (one-to-one
with a patient user via `user`).  Descriptive fields are omitted (no modelled
endpoint reads them). -/
structure PatientProfile where
  id : Nat
  user : Nat
deriving DecidableEq, Repr

/-- The backing relational store. -/
structure Store where
  users : List User
  appointments : List Appointment
  records : List MedicalRecord
  profiles : List PatientProfile
deriving DecidableEq, Repr

/-- Error outcomes, one per distinct early-return / exception path of the
modelled views and serializers.  `notFound` is `get_object_or_404`,
`forbidden` is an HTTP 403 response, `invalidTransition` covers the HTTP 400
responses guarding `confirm` / `complete` / `cancel`, `invalidIds`,
`pastDateTime` and `doubleBooked` are the three `ValidationError` branches of
`AppointmentSerializer.validate`, `appointmentMismatch` is the mismatch
`ValidationError` of `MedicalRecordSerializer.validate`, and
`uniqueViolation` is the database `IntegrityError` raised by the
`unique_together = [doctor, date_time]` constraint of `Appointment.Meta`. -/
inductive Err where
  | notFound
  | forbidden
  | invalidTransition
  | invalidIds
  | pastDateTime
  | doubleBooked
  | appointmentMismatch
  | uniqueViolation
deriving DecidableEq, Repr

/-- Embeds `User.objects.get(id=i, role=r)` as used by the serializers: the user row
with the given id and role, if any. -/
def findUserWithRole (users : List User) (i : Nat) (r : Role) : Option User :=
  users.find? (fun u => u.id == i && u.role == r)

/-! ## Query scoping (`get_queryset` of the three viewsets, views.py) -/

/-- Embeds `AppointmentViewSet.get_queryset`: admins see all appointments, doctors
those where they are the doctor, everyone else (patients) those where they
are the patient. -/
def appointmentQueryset (s : Store) (user : User) : List Appointment :=
  if user.is_admin then s.appointments
  else if user.is_doctor then s.appointments.filter (fun a => a.doctor == user.id)
  else s.appointments.filter (fun a => a.patient == user.id)

/-- Embeds `MedicalRecordViewSet.get_queryset`: same shape as for appointments. -/
def medicalRecordQueryset (s : Store) (user : User) : List MedicalRecord :=
  if user.is_admin then s.records
  else if user.is_doctor then s.records.filter (fun r => r.doctor == user.id)
  else s.records.filter (fun r => r.patient == user.id)

/-- Embeds `PatientProfileViewSet.get_queryset`: admins see all profiles, doctors the
profiles of patients having some appointment with them, everyone else only
the profile whose `user` is the requester. -/
def patientProfileQueryset (s : Store) (user : User) : List PatientProfile :=
  if user.is_admin then s.profiles
  else if user.is_doctor then
    s.profiles.filter (fun p =>
      s.appointments.any (fun a => a.doctor == user.id && a.patient == p.user))
  else s.profiles.filter (fun p => p.user == user.id)

/-- Embeds `self.get_object()` on the appointment viewset: `get_object_or_404`
within the role-scoped queryset, keyed by primary key. -/
def getAppointmentObject (s : Store) (user : User) (pk : Nat) : Option Appointment :=
  (appointmentQueryset s user).find? (fun a => a.id == pk)

/-! ## Appointment status actions (views.py `confirm`, `complete`, `cancel`) -/

/-- Embeds `appointment.status = st; appointment.save()`: rewrite the status of the
appointment with primary key `pk`; `updated_at` is refreshed by the model
field `auto_now`.  All other rows and fields are untouched. -/
def setStatus (s : Store) (pk : Nat) (st : Status) (now : Int) : Store :=
  { s with appointments := s.appointments.map (fun a =>
      if a.id == pk then { a with status := st, updated_at := now } else a) }

/-- Embeds `AppointmentViewSet.confirm`: 403 unless the caller is a doctor and the
assigned doctor; 400 unless the status is `pending`; otherwise set
`confirmed`. -/
def confirm (s : Store) (actor : User) (pk : Nat) (now : Int) : Except Err Store :=
  match getAppointmentObject s actor pk with
  | none => .error .notFound
  | some appt =>
    if !actor.is_doctor || appt.doctor != actor.id then .error .forbidden
    else if appt.status != Status.pending then .error .invalidTransition
    else .ok (setStatus s pk Status.confirmed now)

/-- Embeds `AppointmentViewSet.complete`: 403 unless the caller is a doctor and the
assigned doctor; 400 unless the status is `confirmed`; otherwise set
`completed`. -/
def complete (s : Store) (actor : User) (pk : Nat) (now : Int) : Except Err Store :=
  match getAppointmentObject s actor pk with
  | none => .error .notFound
  | some appt =>
    if !actor.is_doctor || appt.doctor != actor.id then .error .forbidden
    else if appt.status != Status.confirmed then .error .invalidTransition
    else .ok (setStatus s pk Status.completed now)

/-- Embeds `AppointmentViewSet.cancel`: 403 unless the caller is the patient, the
assigned doctor, or an admin; 400 unless `can_be_cancelled`; otherwise set
`cancelled`. -/
def cancel (s : Store) (actor : User) (pk : Nat) (now : Int) : Except Err Store :=
  match getAppointmentObject s actor pk with
  | none => .error .notFound
  | some appt =>
    if !(actor.id == appt.patient || actor.id == appt.doctor || actor.is_admin) then
      .error .forbidden
    else if !appt.can_be_cancelled now then .error .invalidTransition
    else .ok (setStatus s pk Status.cancelled now)

/-- Embeds `ModelViewSet.destroy` as inherited by `AppointmentViewSet` (no override,
so DELETE is routed): `get_object` within the scoped queryset, then
`instance.delete()`. -/
def destroyAppointment (s : Store) (actor : User) (pk : Nat) : Except Err Store :=
  match getAppointmentObject s actor pk with
  | none => .error .notFound
  | some _ =>
    .ok { s with appointments := s.appointments.filter (fun a => a.id != pk) }

/-- The status of the appointment row with primary key `pk`, if present. -/
def statusOf (s : Store) (pk : Nat) : Option Status :=
  (s.appointments.find? (fun a => a.id == pk)).map (fun a => a.status)

/-! ## Appointment creation (`AppointmentSerializer.validate` +
`AppointmentViewSet.perform_create`, plus the `unique_together` database
constraint) -/

/-- The write payload of `POST /appointments`: the writable serializer fields
(`patient_id`, `doctor_id` are declared write-only integer fields; `status`
is writable with model default `pending`). -/
structure AppointmentRequest where
  patient_id : Nat
  doctor_id : Nat
  date_time : Int
  reason : String
  notes : String
  status : Status
deriving DecidableEq, Repr

/-- The double-booking filter of `AppointmentSerializer.validate`:
`Appointment.objects.filter(doctor=doctor, date_time=dt,
status__in=[pending, confirmed])` is nonempty. -/
def doubleBookedCheck (appts : List Appointment) (doctorId : Nat) (dt : Int) : Bool :=
  appts.any (fun a => a.doctor == doctorId && a.date_time == dt &&
    (a.status == Status.pending || a.status == Status.confirmed))

/-- Embeds `AppointmentSerializer.validate`: look up the patient and doctor by id
and role, require `date_time > now`, then require the double-booking filter
to be empty. -/
def appointmentValidate (s : Store) (req : AppointmentRequest) (now : Int) :
    Except Err Unit :=
  match findUserWithRole s.users req.patient_id Role.patient,
        findUserWithRole s.users req.doctor_id Role.doctor with
  | some _, some doctor =>
    if req.date_time ≤ now then .error .pastDateTime
    else if doubleBookedCheck s.appointments doctor.id req.date_time then
      .error .doubleBooked
    else .ok ()
  | _, _ => .error .invalidIds

/-- The `unique_together = [doctor, date_time]` constraint of
`Appointment.Meta`: a row with the same doctor and timestamp already exists
(any status). -/
def uniqueTogetherViolated (appts : List Appointment) (doctorId : Nat) (dt : Int) : Bool :=
  appts.any (fun a => a.doctor == doctorId && a.date_time == dt)

/-- Embeds `POST /appointments`: run `AppointmentSerializer.validate`, then
`perform_create` — if the requester is a patient the row is saved with
`serializer.save(patient=request.user)` (the requester becomes the patient),
otherwise with the supplied `patient_id` — and the database enforces the
`unique_together` constraint on insert. -/
def appointmentCreate (s : Store) (requester : User) (req : AppointmentRequest)
    (now : Int) (newId : Nat) : Except Err Store :=
  match appointmentValidate s req now with
  | .error e => .error e
  | .ok () =>
    if uniqueTogetherViolated s.appointments req.doctor_id req.date_time then
      .error .uniqueViolation
    else
      .ok { s with appointments := s.appointments ++
        [{ id := newId,
           patient := if requester.is_patient then requester.id else req.patient_id,
           doctor := req.doctor_id,
           date_time := req.date_time, status := req.status, reason := req.reason,
           notes := req.notes, created_at := now, updated_at := now }] }

/-! ## Medical record creation (`MedicalRecordSerializer.validate`) -/

/-- The write payload of `POST /medical-records` (writable id fields and the
required text fields). -/
structure MedicalRecordRequest where
  patient_id : Nat
  doctor_id : Nat
  appointment_id : Nat
  symptoms : String
  diagnosis : String
deriving DecidableEq, Repr

/-- Embeds `MedicalRecordSerializer.validate`: look up the patient (role patient),
the doctor (role doctor) and the appointment by id; fail if any lookup
misses; then fail with the mismatch error when the fetched appointment does
not reference exactly that patient and doctor. -/
def medicalRecordValidate (s : Store) (req : MedicalRecordRequest) :
    Except Err Unit :=
  match findUserWithRole s.users req.patient_id Role.patient,
        findUserWithRole s.users req.doctor_id Role.doctor,
        s.appointments.find? (fun a => a.id == req.appointment_id) with
  | some p, some d, some appt =>
    if appt.patient != p.id || appt.doctor != d.id then .error .appointmentMismatch
    else .ok ()
  | _, _, _ => .error .invalidIds

/-! ## Dashboard (`DashboardViewSet`, views.py) -/

/-- A stable insertion into a list sorted descending by `key`: the new
element goes in front of every element whose key is not larger.  This is the
deterministic reading of the `order_by(-field)` clauses of the dashboard
queries. -/
def insertByKeyDesc [LinearOrder β] (key : α → β) (x : α) :
    List α → List α
  | [] => [x]
  | y :: ys => if key y ≤ key x then x :: y :: ys else y :: insertByKeyDesc key x ys

/-- Stable sort, descending by `key` (ties keep their original relative
order, so grouped diagnoses stay in first-seen order). -/
def sortByKeyDesc [LinearOrder β] (key : α → β) : List α → List α
  | [] => []
  | x :: xs => insertByKeyDesc key x (sortByKeyDesc key xs)

/-- Embeds `MedicalRecord.objects.filter(diagnosis=d).count()` for a fixed exact
diagnosis text: the multiplicity of `d` among the records. -/
def countDiagnosis (records : List MedicalRecord) (d : String) : Nat :=
  (records.filter (fun r => r.diagnosis == d)).length

/-- The distinct diagnosis texts of the records, in first-seen order (the
grouping key list of `values(diagnosis)`). -/
def distinctDiagnoses (records : List MedicalRecord) : List String :=
  records.foldl (fun acc r => if acc.contains r.diagnosis then acc else acc ++ [r.diagnosis]) []

/-- Embeds `MedicalRecord.objects.values(diagnosis).annotate(count=Count(diagnosis))
.order_by(-count)[:5]` from `DashboardViewSet.stats`: group by exact
diagnosis text, count, sort descending by count (ties in first-seen order),
take 5. -/
def common_diagnoses (records : List MedicalRecord) : List (String × Nat) :=
  (sortByKeyDesc (fun p => p.2)
    ((distinctDiagnoses records).map (fun d => (d, countDiagnosis records d)))).take 5

/-- The response body of `GET /dashboard/stats`. -/
structure DashboardStats where
  total_patients : Nat
  total_doctors : Nat
  total_appointments : Nat
  pending_appointments : Nat
  completed_appointments : Nat
  total_medical_records : Nat
  common_diagnoses : List (String × Nat)
deriving DecidableEq, Repr

/-- The permission gate of `DashboardViewSet`:
`permission_classes = [IsAdminUser]`, which in the REST framework grants
access exactly when `request.user.is_staff` is true (it does not read the
EHR `role` field). -/
def isAdminUserPermission (u : User) : Bool := u.is_staff

/-- Embeds `DashboardViewSet.stats` (`GET /dashboard/stats`): gated by
`IsAdminUser`, then aggregate counts and the top-5 diagnoses. -/
def dashboardStats (s : Store) (caller : User) : Except Err DashboardStats :=
  if !isAdminUserPermission caller then .error .forbidden
  else .ok
    { total_patients := (s.users.filter (fun u => u.role == Role.patient)).length
      total_doctors := (s.users.filter (fun u => u.role == Role.doctor)).length
      total_appointments := s.appointments.length
      pending_appointments :=
        (s.appointments.filter (fun a => a.status == Status.pending)).length
      completed_appointments :=
        (s.appointments.filter (fun a => a.status == Status.completed)).length
      total_medical_records := s.records.length
      common_diagnoses := common_diagnoses s.records }

/-- Embeds `DashboardViewSet.recent_activity` (`GET /dashboard/recent-activity`):
gated by `IsAdminUser`, then the 10 most recently created appointments and
records (`order_by(-created_at)[:10]`). -/
def recent_activity (s : Store) (caller : User) :
    Except Err (List Appointment × List MedicalRecord) :=
  if !isAdminUserPermission caller then .error .forbidden
  else .ok
    ((sortByKeyDesc (fun a => a.created_at) s.appointments).take 10,
     (sortByKeyDesc (fun r => r.created_at) s.records).take 10)

/-! ## Concrete fixtures used by witnesses and counterexamples -/

/-- A patient user. -/
def alice : User := { id := 1, role := Role.patient, is_staff := false }

/-- A doctor user. -/
def bob : User := { id := 2, role := Role.doctor, is_staff := false }

/-- A user whose EHR role is admin but whose Django staff flag is unset, as
registration (`create_user`) produces. -/
def carol : User := { id := 3, role := Role.admin, is_staff := false }

/-- A second patient user. -/
def dave : User := { id := 4, role := Role.patient, is_staff := false }

/-- A user with the Django staff flag set. -/
def eve : User := { id := 5, role := Role.doctor, is_staff := true }

/-- A pending appointment of alice with doctor bob at time 100. -/
def appt1 : Appointment :=
  { id := 1, patient := 1, doctor := 2, date_time := 100, status := Status.pending,
    reason := "", notes := "", created_at := 0, updated_at := 0 }

/-- A completed appointment of alice with doctor bob at time 80. -/
def apptDone : Appointment :=
  { id := 2, patient := 1, doctor := 2, date_time := 80, status := Status.completed,
    reason := "", notes := "", created_at := 0, updated_at := 0 }

/-- A completed appointment of alice with doctor bob at time 100 (same slot
as `conflictingReq`). -/
def apptCompleted100 : Appointment :=
  { id := 1, patient := 1, doctor := 2, date_time := 100, status := Status.completed,
    reason := "", notes := "", created_at := 0, updated_at := 0 }

/-- A pending appointment of dave with doctor bob at time 200. -/
def apptDave : Appointment :=
  { id := 3, patient := 4, doctor := 2, date_time := 200, status := Status.pending,
    reason := "", notes := "", created_at := 0, updated_at := 0 }

/-- Store with only the pending appointment `appt1`. -/
def storeWithPending : Store :=
  { users := [alice, bob], appointments := [appt1], records := [], profiles := [] }

/-- Store whose only appointment at slot (doctor 2, time 100) is completed. -/
def storeWithCompleted : Store :=
  { users := [alice, bob], appointments := [apptCompleted100], records := [],
    profiles := [] }

/-- Store with a pending and a completed appointment of the same doctor. -/
def mixedStore : Store :=
  { users := [alice, bob], appointments := [appt1, apptDone], records := [],
    profiles := [] }

/-- Store with two patients, used to exercise scoping. -/
def medRec1 : MedicalRecord :=
  { id := 1, patient := 1, doctor := 2, appointment := 1, symptoms := "",
    diagnosis := "flu", created_at := 0 }

/-- A record belonging to dave. -/
def medRec4 : MedicalRecord :=
  { id := 2, patient := 4, doctor := 2, appointment := 3, symptoms := "",
    diagnosis := "cold", created_at := 0 }

/-- Profile of alice. -/
def profile1 : PatientProfile := { id := 1, user := 1 }

/-- Profile of dave. -/
def profile4 : PatientProfile := { id := 2, user := 4 }

/-- Store holding data of two different patients. -/
def twoPatientStore : Store :=
  { users := [alice, bob, dave], appointments := [appt1, apptDave],
    records := [medRec1, medRec4], profiles := [profile1, profile4] }

/-- Store with both patients and no appointments yet. -/
def cleanStore : Store :=
  { users := [alice, bob, dave], appointments := [], records := [], profiles := [] }

/-- Creation request for the slot (doctor 2, time 100) on behalf of patient 1. -/
def conflictingReq : AppointmentRequest :=
  { patient_id := 1, doctor_id := 2, date_time := 100, reason := "", notes := "",
    status := Status.pending }

/-- Creation request naming dave as patient (doctor 2, time 300). -/
def daveReq : AppointmentRequest :=
  { patient_id := 4, doctor_id := 2, date_time := 300, reason := "", notes := "",
    status := Status.pending }

/-- Medical record request naming dave against an appointment of alice. -/
def mismatchReq : MedicalRecordRequest :=
  { patient_id := 4, doctor_id := 2, appointment_id := 1, symptoms := "",
    diagnosis := "flu" }

/-- Medical record request matching the appointment `appt1`. -/
def matchingReq : MedicalRecordRequest :=
  { patient_id := 1, doctor_id := 2, appointment_id := 1, symptoms := "",
    diagnosis := "flu" }

/-- Records with diagnoses flu, flu, cold (the spec scenario). -/
def fluRecords : List MedicalRecord :=
  [{ id := 1, patient := 1, doctor := 2, appointment := 1, symptoms := "",
     diagnosis := "flu", created_at := 0 },
   { id := 2, patient := 1, doctor := 2, appointment := 1, symptoms := "",
     diagnosis := "flu", created_at := 1 },
   { id := 3, patient := 4, doctor := 2, appointment := 3, symptoms := "",
     diagnosis := "cold", created_at := 2 }]

/-- The appointment slots occupied in a store are pairwise distinct in
(doctor, date_time): the invariant maintained by the `unique_together`
database constraint.  It implies in particular that at most one
non-cancelled appointment occupies any (doctor, date_time) pair. -/
def uniqueDoctorSlots (appts : List Appointment) : Prop :=
  appts.Pairwise (fun a b => ¬(a.doctor = b.doctor ∧ a.date_time = b.date_time))

/-! ## Helper lemmas -/

theorem mem_insertByKeyDesc [LinearOrder β] (key : α → β) (x a : α) (l : List α) :
    a ∈ insertByKeyDesc key x l ↔ a = x ∨ a ∈ l := by
  induction l with
  | nil => simp [insertByKeyDesc]
  | cons y ys ih =>
    simp only [insertByKeyDesc]
    split
    · simp
    · simp [ih]
      tauto

theorem pairwise_insertByKeyDesc [LinearOrder β] (key : α → β) (x : α) (l : List α)
    (h : l.Pairwise (fun p q => key q ≤ key p)) :
    (insertByKeyDesc key x l).Pairwise (fun p q => key q ≤ key p) := by
  induction l with
  | nil => simp [insertByKeyDesc]
  | cons y ys ih =>
    rw [List.pairwise_cons] at h
    obtain ⟨hy, hys⟩ := h
    simp only [insertByKeyDesc]
    split
    · rename_i hle
      rw [List.pairwise_cons]
      refine ⟨?_, List.pairwise_cons.mpr ⟨hy, hys⟩⟩
      intro z hz
      rcases List.mem_cons.mp hz with rfl | hz
      · exact hle
      · exact le_trans (hy z hz) hle
    · rename_i hnle
      rw [List.pairwise_cons]
      refine ⟨?_, ih hys⟩
      intro z hz
      rcases (mem_insertByKeyDesc key x z ys).mp hz with rfl | hz
      · exact le_of_not_le hnle
      · exact hy z hz

theorem pairwise_sortByKeyDesc [LinearOrder β] (key : α → β) (l : List α) :
    (sortByKeyDesc key l).Pairwise (fun p q => key q ≤ key p) := by
  induction l with
  | nil => simp [sortByKeyDesc]
  | cons x xs ih => exact pairwise_insertByKeyDesc key x _ ih

theorem mem_sortByKeyDesc [LinearOrder β] (key : α → β) (l : List α) (a : α) :
    a ∈ sortByKeyDesc key l ↔ a ∈ l := by
  induction l with
  | nil => simp [sortByKeyDesc]
  | cons x xs ih => simp [sortByKeyDesc, mem_insertByKeyDesc, ih]

theorem find_id_eq_some {l : List Appointment} {a : Appointment} {pk : Nat}
    (hnd : (l.map (fun x => x.id)).Nodup) (ha : a ∈ l) (hid : a.id = pk) :
    l.find? (fun x => x.id == pk) = some a := by
  cases hfind : l.find? (fun x => x.id == pk) with
  | none =>
    rw [List.find?_eq_none] at hfind
    exact absurd (by simp [hid]) (hfind a ha)
  | some b =>
    have hb := List.find?_some hfind
    have hbl : b ∈ l := List.mem_of_find?_eq_some hfind
    have hba : b = a :=
      List.inj_on_of_nodup_map hnd hbl ha (by simp at hb; rw [hb, hid])
    rw [hba]

theorem getAppointmentObject_mem {s : Store} {u : User} {pk : Nat}
    {a : Appointment} (h : getAppointmentObject s u pk = some a) :
    a ∈ s.appointments ∧ a.id = pk := by
  have hid : a.id = pk := by simpa using List.find?_some h
  refine ⟨?_, hid⟩
  unfold getAppointmentObject appointmentQueryset at h
  split at h
  · exact List.mem_of_find?_eq_some h
  · split at h
    · exact List.mem_of_mem_filter (List.mem_of_find?_eq_some h)
    · exact List.mem_of_mem_filter (List.mem_of_find?_eq_some h)

theorem getAppointmentObject_eq_some {s : Store} {u : User} {pk : Nat}
    {a : Appointment}
    (hnd : (s.appointments.map (fun x => x.id)).Nodup)
    (ha : a ∈ s.appointments) (hid : a.id = pk)
    (hscope : u.role = Role.admin ∨ (u.role = Role.doctor ∧ a.doctor = u.id) ∨
      (u.role = Role.patient ∧ a.patient = u.id)) :
    getAppointmentObject s u pk = some a := by
  unfold getAppointmentObject appointmentQueryset
  rcases hscope with hr | ⟨hr, hown⟩ | ⟨hr, hown⟩
  · rw [if_pos (by simp [User.is_admin, hr])]
    exact find_id_eq_some hnd ha hid
  · rw [if_neg (by simp [User.is_admin, hr]), if_pos (by simp [User.is_doctor, hr])]
    exact find_id_eq_some
      (List.Nodup.sublist (List.Sublist.map _ (List.filter_sublist _)) hnd)
      (List.mem_filter.mpr ⟨ha, by simp [hown]⟩) hid
  · rw [if_neg (by simp [User.is_admin, hr]), if_neg (by simp [User.is_doctor, hr])]
    exact find_id_eq_some
      (List.Nodup.sublist (List.Sublist.map _ (List.filter_sublist _)) hnd)
      (List.mem_filter.mpr ⟨ha, by simp [hown]⟩) hid

theorem confirm_ok_elim {s : Store} {actor : User} {pk : Nat} {now : Int}
    {s' : Store} (h : confirm s actor pk now = .ok s') :
    ∃ appt, getAppointmentObject s actor pk = some appt ∧
      actor.is_doctor = true ∧ appt.doctor = actor.id ∧
      appt.status = Status.pending ∧ s' = setStatus s pk Status.confirmed now := by
  unfold confirm at h
  split at h
  · exact Except.noConfusion h
  · rename_i appt hobj
    refine ⟨appt, hobj, ?_⟩
    split at h
    · exact Except.noConfusion h
    · rename_i h1
      split at h
      · exact Except.noConfusion h
      · rename_i h2
        simp only [Bool.or_eq_true, Bool.not_eq_true', bne_iff_ne, not_or,
          Decidable.not_not, Bool.not_eq_false] at h1 h2
        exact ⟨h1.1, h1.2, h2, (Except.ok.inj h).symm⟩

theorem complete_ok_elim {s : Store} {actor : User} {pk : Nat} {now : Int}
    {s' : Store} (h : complete s actor pk now = .ok s') :
    ∃ appt, getAppointmentObject s actor pk = some appt ∧
      actor.is_doctor = true ∧ appt.doctor = actor.id ∧
      appt.status = Status.confirmed ∧ s' = setStatus s pk Status.completed now := by
  unfold complete at h
  split at h
  · exact Except.noConfusion h
  · rename_i appt hobj
    refine ⟨appt, hobj, ?_⟩
    split at h
    · exact Except.noConfusion h
    · rename_i h1
      split at h
      · exact Except.noConfusion h
      · rename_i h2
        simp only [Bool.or_eq_true, Bool.not_eq_true', bne_iff_ne, not_or,
          Decidable.not_not, Bool.not_eq_false] at h1 h2
        exact ⟨h1.1, h1.2, h2, (Except.ok.inj h).symm⟩

theorem cancel_ok_elim {s : Store} {actor : User} {pk : Nat} {now : Int}
    {s' : Store} (h : cancel s actor pk now = .ok s') :
    ∃ appt, getAppointmentObject s actor pk = some appt ∧
      (actor.id = appt.patient ∨ actor.id = appt.doctor ∨ actor.is_admin = true) ∧
      (appt.status = Status.pending ∨ appt.status = Status.confirmed) ∧
      now < appt.date_time ∧ s' = setStatus s pk Status.cancelled now := by
  unfold cancel at h
  split at h
  · exact Except.noConfusion h
  · rename_i appt hobj
    refine ⟨appt, hobj, ?_⟩
    split at h
    · exact Except.noConfusion h
    · rename_i h1
      split at h
      · exact Except.noConfusion h
      · rename_i h2
        simp only [Bool.not_eq_true', Bool.not_eq_false, Bool.or_eq_true,
          beq_iff_eq] at h1 h2
        unfold Appointment.can_be_cancelled Appointment.is_upcoming at h2
        simp only [Bool.and_eq_true, Bool.or_eq_true, beq_iff_eq,
          decide_eq_true_eq] at h2
        exact ⟨or_assoc.mp h1, h2.1, h2.2, (Except.ok.inj h).symm⟩

theorem setStatus_users (s : Store) (pk : Nat) (st : Status) (now : Int) :
    (setStatus s pk st now).users = s.users := rfl

theorem setStatus_records (s : Store) (pk : Nat) (st : Status) (now : Int) :
    (setStatus s pk st now).records = s.records := rfl

theorem setStatus_profiles (s : Store) (pk : Nat) (st : Status) (now : Int) :
    (setStatus s pk st now).profiles = s.profiles := rfl

theorem setStatus_length (s : Store) (pk : Nat) (st : Status) (now : Int) :
    (setStatus s pk st now).appointments.length = s.appointments.length := by
  unfold setStatus
  simp

theorem setStatus_mem_of_ne {s : Store} {pk : Nat} {st : Status} {now : Int}
    {a : Appointment} (ha : a ∈ s.appointments) (hne : a.id ≠ pk) :
    a ∈ (setStatus s pk st now).appointments := by
  unfold setStatus
  have := List.mem_map_of_mem
    (fun x => if x.id == pk then { x with status := st, updated_at := now } else x) ha
  simpa [hne] using this

theorem setStatus_mem_of_eq {s : Store} {pk : Nat} {st : Status} {now : Int}
    {a : Appointment} (ha : a ∈ s.appointments) (heq : a.id = pk) :
    { a with status := st, updated_at := now } ∈ (setStatus s pk st now).appointments := by
  unfold setStatus
  have := List.mem_map_of_mem
    (fun x => if x.id == pk then { x with status := st, updated_at := now } else x) ha
  simpa [heq] using this

theorem statusOf_setStatus (s : Store) (pk : Nat) (st : Status) (now : Int) :
    statusOf (setStatus s pk st now) pk = (statusOf s pk).map (fun _ => st) := by
  unfold statusOf setStatus
  simp only [List.find?_map]
  have hpred : ((fun a : Appointment => a.id == pk) ∘
      (fun a : Appointment =>
        if a.id == pk then { a with status := st, updated_at := now } else a)) =
      (fun a : Appointment => a.id == pk) := by
    funext a
    by_cases h : a.id = pk <;> simp [h]
  rw [hpred]
  cases hf : s.appointments.find? (fun a => a.id == pk) with
  | none => simp
  | some a =>
    have ha := List.find?_some hf
    simp only [beq_iff_eq] at ha
    simp [ha]

/-! ## Claim theorems -/

/-- C3: for every requester whose role is patient, every element returned by
the appointment listing, the medical-record listing and the patient-profile
listing is that requesters own appointment, record, or profile — the scoped
querysets never contain data of another patient. -/
theorem patient_scoping (s : Store) (u : User) (h : u.role = Role.patient) :
    (∀ a ∈ appointmentQueryset s u, a.patient = u.id) ∧
    (∀ r ∈ medicalRecordQueryset s u, r.patient = u.id) ∧
    (∀ p ∈ patientProfileQueryset s u, p.user = u.id) := by
  have hA : u.is_admin = false := by simp [User.is_admin, h]
  have hD : u.is_doctor = false := by simp [User.is_doctor, h]
  refine ⟨fun a ha => ?_, fun r hr => ?_, fun p hp => ?_⟩
  · rw [appointmentQueryset, if_neg (by simp [hA]), if_neg (by simp [hD])] at ha
    have := (List.mem_filter.mp ha).2
    simpa using this
  · rw [medicalRecordQueryset, if_neg (by simp [hA]), if_neg (by simp [hD])] at hr
    have := (List.mem_filter.mp hr).2
    simpa using this
  · rw [patientProfileQueryset, if_neg (by simp [hA]), if_neg (by simp [hD])] at hp
    have := (List.mem_filter.mp hp).2
    simpa using this

/-- Witness for C3 at a concrete two-patient store: the listing for alice
only yields rows whose patient (or profile owner) is alice. -/
theorem patient_scoping_witness :
    appt1.patient = alice.id ∧ medRec1.patient = alice.id ∧
    profile1.user = alice.id :=
  ⟨(patient_scoping twoPatientStore alice rfl).1 appt1 (by decide),
   (patient_scoping twoPatientStore alice rfl).2.1 medRec1 (by decide),
   (patient_scoping twoPatientStore alice rfl).2.2 profile1 (by decide)⟩

/-- C8 counterexample: a caller whose EHR role is admin but whose Django
staff flag is unset is rejected by both dashboard endpoints, refuting the
claim that every admin-role caller passes the permission check. -/
theorem dashboard_rejects_unstaffed_admin :
    carol.role = Role.admin ∧
    dashboardStats twoPatientStore carol = .error .forbidden ∧
    recent_activity twoPatientStore carol = .error .forbidden :=
  ⟨rfl, rfl, rfl⟩

/-- C8 amended: the dashboard endpoints are gated by the framework
`IsAdminUser` permission, which tests the Django `is_staff` flag and not the
EHR role: both endpoints fail Forbidden exactly for callers without the
staff flag and succeed exactly for callers with it, whatever their role. -/
theorem dashboard_requires_staff_flag (s : Store) (u : User) :
    (dashboardStats s u = .error .forbidden ↔ u.is_staff = false) ∧
    ((∃ v, dashboardStats s u = .ok v) ↔ u.is_staff = true) ∧
    (recent_activity s u = .error .forbidden ↔ u.is_staff = false) ∧
    ((∃ v, recent_activity s u = .ok v) ↔ u.is_staff = true) := by
  cases h : u.is_staff <;>
    simp [dashboardStats, recent_activity, isAdminUserPermission, h]

/-- Witness for C8 amended: the staff-flagged user eve gets a stats payload,
at a concrete store. -/
theorem dashboard_requires_staff_flag_witness :
    ∃ v, dashboardStats twoPatientStore eve = .ok v :=
  ((dashboard_requires_staff_flag twoPatientStore eve).2.1).mpr rfl

/-- C7: the top-5 diagnoses list of the dashboard is the grouped diagnosis
counts, sorted descending by count with ties in first-seen order, cut to at
most five entries, each entry carrying the exact occurrence count of its
diagnosis text; on the store with diagnoses flu, flu, cold it is flu with
count 2 followed by cold with count 1. -/
theorem dashboard_top5_diagnoses :
    (∀ records : List MedicalRecord,
      (common_diagnoses records).length ≤ 5 ∧
      (common_diagnoses records).Pairwise (fun p q => q.2 ≤ p.2) ∧
      ∀ p ∈ common_diagnoses records, p.2 = countDiagnosis records p.1) ∧
    common_diagnoses fluRecords = [("flu", 2), ("cold", 1)] := by
  constructor
  · intro records
    refine ⟨List.length_take_le _ _, ?_, ?_⟩
    · exact (pairwise_sortByKeyDesc (fun p : String × Nat => p.2) _).sublist
        (List.take_sublist _ _)
    · intro p hp
      have hp' := List.mem_of_mem_take hp
      rw [mem_sortByKeyDesc] at hp'
      obtain ⟨d, _, rfl⟩ := List.mem_map.mp hp'
      rfl
  · rfl

/-- Witness for C7: the count carried by the flu entry of the concrete
scenario equals the number of flu records. -/
theorem dashboard_top5_diagnoses_witness :
    ("flu", 2).2 = countDiagnosis fluRecords "flu" :=
  (dashboard_top5_diagnoses.1 fluRecords).2.2 ("flu", 2) (by decide)

/-- C6: with the three lookups of `MedicalRecordSerializer.validate`
succeeding, validation fails with the appointment-mismatch error exactly
when the fetched appointment references a different patient or doctor than
the supplied ids, and succeeds when both match. -/
theorem medical_record_mismatch (s : Store) (req : MedicalRecordRequest)
    (p d : User) (appt : Appointment)
    (hp : findUserWithRole s.users req.patient_id Role.patient = some p)
    (hd : findUserWithRole s.users req.doctor_id Role.doctor = some d)
    (ha : s.appointments.find? (fun a => a.id == req.appointment_id) = some appt) :
    (medicalRecordValidate s req = .error .appointmentMismatch ↔
      (appt.patient ≠ req.patient_id ∨ appt.doctor ≠ req.doctor_id)) ∧
    (appt.patient = req.patient_id → appt.doctor = req.doctor_id →
      medicalRecordValidate s req = .ok ()) := by
  have hpid : p.id = req.patient_id := by
    have := List.find?_some hp
    simp only [Bool.and_eq_true, beq_iff_eq] at this
    exact this.1
  have hdid : d.id = req.doctor_id := by
    have := List.find?_some hd
    simp only [Bool.and_eq_true, beq_iff_eq] at this
    exact this.1
  have hval : medicalRecordValidate s req =
      if (appt.patient != p.id || appt.doctor != d.id) = true then
        Except.error Err.appointmentMismatch
      else Except.ok () := by
    unfold medicalRecordValidate
    rw [hp, hd, ha]
  rw [hval]
  by_cases hc : (appt.patient != p.id || appt.doctor != d.id) = true
  · rw [if_pos hc]
    simp only [Bool.or_eq_true, bne_iff_ne] at hc
    constructor
    · simp only [true_iff]
      · rcases hc with hc | hc
        · exact Or.inl (hpid ▸ hc)
        · exact Or.inr (hdid ▸ hc)
    · intro h1 h2
      rcases hc with hc | hc
      · exact absurd (hpid.symm ▸ h1) hc
      · exact absurd (hdid.symm ▸ h2) hc
  · rw [if_neg hc]
    simp only [Bool.or_eq_true, bne_iff_ne, not_or, Decidable.not_not] at hc
    constructor
    · constructor
      · intro h; exact Except.noConfusion h
      · intro h
        rcases h with h | h
        · exact absurd (hpid ▸ hc.1) h
        · exact absurd (hdid ▸ hc.2) h
    · intro _ _; rfl

/-- Witness for C6: at a concrete store, a record request naming dave
against an appointment of alice fails with the mismatch error, and the
matching request validates. -/
theorem medical_record_mismatch_witness :
    medicalRecordValidate twoPatientStore mismatchReq = .error .appointmentMismatch ∧
    medicalRecordValidate twoPatientStore matchingReq = .ok () :=
  ⟨(medical_record_mismatch twoPatientStore mismatchReq dave bob appt1
      rfl rfl rfl).1.mpr (Or.inl (by decide)),
   (medical_record_mismatch twoPatientStore matchingReq alice bob appt1
      rfl rfl rfl).2 rfl rfl⟩

/-- C9: when the requester has role patient, a successful appointment create
appends a row whose patient is the requester, whatever `patient_id` the
request body carried (`perform_create` saves with
`patient=self.request.user`). -/
theorem patient_create_self (s : Store) (requester : User)
    (req : AppointmentRequest) (now : Int) (newId : Nat) (s' : Store)
    (hrole : requester.role = Role.patient)
    (hok : appointmentCreate s requester req now newId = .ok s') :
    ∃ a : Appointment, s'.appointments = s.appointments ++ [a] ∧
      a.patient = requester.id ∧ a.doctor = req.doctor_id ∧
      a.date_time = req.date_time := by
  unfold appointmentCreate at hok
  split at hok
  · exact Except.noConfusion hok
  · split at hok
    · exact Except.noConfusion hok
    · have hs' := Except.ok.inj hok
      refine ⟨⟨newId, if requester.is_patient then requester.id else req.patient_id,
          req.doctor_id, req.date_time, req.status, req.reason, req.notes,
          now, now⟩, ?_, ?_, rfl, rfl⟩
      · rw [← hs']
      · show (if requester.is_patient then requester.id else req.patient_id) =
          requester.id
        simp [User.is_patient, hrole]

/-- Witness for C9: alice (a patient) creates an appointment whose body
names dave as patient; the stored row has alice as patient. -/
theorem patient_create_self_witness :
    ∃ a : Appointment,
      ({ cleanStore with appointments :=
          [{ id := 7, patient := 1, doctor := 2, date_time := 300,
             status := Status.pending, reason := "", notes := "",
             created_at := 50, updated_at := 50 }] } : Store).appointments =
        cleanStore.appointments ++ [a] ∧
      a.patient = alice.id ∧ a.doctor = daveReq.doctor_id ∧
      a.date_time = daveReq.date_time :=
  patient_create_self cleanStore alice daveReq 50 7 _ rfl rfl

/-- C1 counterexample: in a store whose only appointment at the slot
(doctor 2, time 100) is completed — hence non-cancelled — the double-booking
filter of `AppointmentSerializer.validate` comes back empty, and create does
not fail with the DoubleBooked validation error: it slips past validation
and dies on the database unique constraint instead. -/
theorem create_check_misses_completed_conflict :
    (apptCompleted100 ∈ storeWithCompleted.appointments ∧
     apptCompleted100.doctor = conflictingReq.doctor_id ∧
     apptCompleted100.date_time = conflictingReq.date_time ∧
     apptCompleted100.status ≠ Status.cancelled) ∧
    doubleBookedCheck storeWithCompleted.appointments conflictingReq.doctor_id
      conflictingReq.date_time = false ∧
    appointmentCreate storeWithCompleted alice conflictingReq 50 7 =
      .error .uniqueViolation :=
  ⟨by decide, rfl, rfl⟩

/-- C1 amended: with valid patient and doctor ids and a future date_time,
create fails with the DoubleBooked validation error exactly when a pending
or confirmed (not merely non-cancelled) appointment already occupies
(doctor, date_time); and any successful create preserves the
`unique_together` invariant that slots are pairwise distinct, which in
particular keeps at most one non-cancelled appointment per slot. -/
theorem appointment_double_booking (s : Store) (requester : User)
    (req : AppointmentRequest) (now : Int) (newId : Nat)
    (hp : (findUserWithRole s.users req.patient_id Role.patient).isSome = true)
    (hd : (findUserWithRole s.users req.doctor_id Role.doctor).isSome = true)
    (hf : now < req.date_time) :
    (appointmentCreate s requester req now newId = .error .doubleBooked ↔
      ∃ a ∈ s.appointments, a.doctor = req.doctor_id ∧
        a.date_time = req.date_time ∧
        (a.status = Status.pending ∨ a.status = Status.confirmed)) ∧
    (∀ s', appointmentCreate s requester req now newId = .ok s' →
      uniqueDoctorSlots s.appointments → uniqueDoctorSlots s'.appointments) := by
  obtain ⟨p, hp⟩ := Option.isSome_iff_exists.mp hp
  obtain ⟨d, hd⟩ := Option.isSome_iff_exists.mp hd
  have hdid : d.id = req.doctor_id := by
    have := List.find?_some hd
    simp only [Bool.and_eq_true, beq_iff_eq] at this
    exact this.1
  have hval : appointmentValidate s req now =
      if doubleBookedCheck s.appointments d.id req.date_time then
        Except.error Err.doubleBooked
      else Except.ok () := by
    unfold appointmentValidate
    rw [hp, hd]
    show (if req.date_time ≤ now then Except.error Err.pastDateTime
      else if doubleBookedCheck s.appointments d.id req.date_time then
        Except.error Err.doubleBooked
      else Except.ok ()) =
      if doubleBookedCheck s.appointments d.id req.date_time then
        Except.error Err.doubleBooked
      else Except.ok ()
    rw [if_neg (not_le.mpr hf)]
  have hiff : doubleBookedCheck s.appointments d.id req.date_time = true ↔
      ∃ a ∈ s.appointments, a.doctor = req.doctor_id ∧
        a.date_time = req.date_time ∧
        (a.status = Status.pending ∨ a.status = Status.confirmed) := by
    unfold doubleBookedCheck
    rw [List.any_eq_true]
    constructor
    · rintro ⟨a, ha, hcond⟩
      simp only [Bool.and_eq_true, Bool.or_eq_true, beq_iff_eq] at hcond
      exact ⟨a, ha, hdid ▸ hcond.1.1, hcond.1.2, hcond.2⟩
    · rintro ⟨a, ha, h1, h2, h3⟩
      refine ⟨a, ha, ?_⟩
      simp only [Bool.and_eq_true, Bool.or_eq_true, beq_iff_eq]
      exact ⟨⟨hdid.symm ▸ h1, h2⟩, h3⟩
  by_cases hdb : doubleBookedCheck s.appointments d.id req.date_time = true
  · constructor
    · rw [show appointmentCreate s requester req now newId =
          Except.error Err.doubleBooked by
        unfold appointmentCreate; rw [hval, if_pos hdb]]
      simp only [true_iff]
      exact hiff.mp hdb
    · intro s' hok
      rw [show appointmentCreate s requester req now newId =
          Except.error Err.doubleBooked by
        unfold appointmentCreate; rw [hval, if_pos hdb]] at hok
      exact Except.noConfusion hok
  · have hdb' : doubleBookedCheck s.appointments d.id req.date_time = false :=
      Bool.not_eq_true _ ▸ hdb
    have hcreate : appointmentCreate s requester req now newId =
        (if uniqueTogetherViolated s.appointments req.doctor_id req.date_time then
          Except.error Err.uniqueViolation
        else Except.ok { s with appointments := s.appointments ++
          [{ id := newId,
             patient := if requester.is_patient then requester.id else req.patient_id,
             doctor := req.doctor_id, date_time := req.date_time,
             status := req.status, reason := req.reason, notes := req.notes,
             created_at := now, updated_at := now }] }) := by
      unfold appointmentCreate
      rw [hval, if_neg (by simp [hdb'])]
    constructor
    · rw [hcreate]
      constructor
      · intro h
        by_cases hu : uniqueTogetherViolated s.appointments req.doctor_id
            req.date_time = true
        · rw [if_pos hu] at h
          exact absurd (Except.error.inj h) (by decide)
        · rw [if_neg hu] at h
          exact Except.noConfusion h
      · intro h
        exact absurd (hiff.mpr h) (by simp [hdb'])
    · intro s' hok hinv
      rw [hcreate] at hok
      by_cases hu : uniqueTogetherViolated s.appointments req.doctor_id
          req.date_time = true
      · rw [if_pos hu] at hok
        exact Except.noConfusion hok
      · rw [if_neg hu] at hok
        have hs' := Except.ok.inj hok
        rw [← hs']
        unfold uniqueDoctorSlots at hinv ⊢
        rw [List.pairwise_append]
        refine ⟨hinv, List.pairwise_singleton _ _, ?_⟩
        intro a ha b hb
        rw [List.mem_singleton] at hb
        subst hb
        have hu' : ∀ x ∈ s.appointments,
            ¬(x.doctor == req.doctor_id && x.date_time == req.date_time) = true := by
          intro x hx hcx
          exact hu (List.any_eq_true.mpr ⟨x, hx, hcx⟩)
        intro hcon
        exact hu' a ha (by simp [hcon.1, hcon.2])

/-- Witness for C1 amended: with the pending appointment occupying the slot,
creating at the same (doctor, date_time) fails with DoubleBooked. -/
theorem appointment_double_booking_witness :
    appointmentCreate storeWithPending alice conflictingReq 50 7 =
      .error .doubleBooked :=
  (appointment_double_booking storeWithPending alice conflictingReq 50 7
    (by decide) (by decide) (by decide)).1.mpr (by decide)

/-- C2: the status actions only ever move pending to confirmed (confirm),
confirmed to completed (complete), or pending/confirmed to cancelled
(cancel); and for an in-scope appointment whose status does not admit the
requested action, the action returns the invalid-transition error (an error
result performs no write, so the status is unchanged). -/
theorem appointment_status_transitions (s : Store) (actor : User) (pk : Nat)
    (now : Int)
    (hids : (s.appointments.map (fun a => a.id)).Nodup) :
    (∀ s', confirm s actor pk now = .ok s' →
      statusOf s pk = some Status.pending ∧
      statusOf s' pk = some Status.confirmed) ∧
    (∀ s', complete s actor pk now = .ok s' →
      statusOf s pk = some Status.confirmed ∧
      statusOf s' pk = some Status.completed) ∧
    (∀ s', cancel s actor pk now = .ok s' →
      (statusOf s pk = some Status.pending ∨
       statusOf s pk = some Status.confirmed) ∧
      statusOf s' pk = some Status.cancelled) ∧
    (∀ a ∈ s.appointments, a.id = pk →
      (actor.role = Role.doctor → a.doctor = actor.id →
        a.status ≠ Status.pending →
        confirm s actor pk now = .error .invalidTransition) ∧
      (actor.role = Role.doctor → a.doctor = actor.id →
        a.status ≠ Status.confirmed →
        complete s actor pk now = .error .invalidTransition) ∧
      ((actor.id = a.patient → actor.role = Role.patient) →
       (actor.id = a.doctor → actor.role = Role.doctor) →
       (actor.id = a.patient ∨ actor.id = a.doctor ∨ actor.role = Role.admin) →
       a.status ≠ Status.pending → a.status ≠ Status.confirmed →
        cancel s actor pk now = .error .invalidTransition)) := by
  refine ⟨?_, ?_, ?_, ?_⟩
  · intro s' h
    obtain ⟨appt, hobj, _, _, hst, hs'⟩ := confirm_ok_elim h
    obtain ⟨hmem, hid⟩ := getAppointmentObject_mem hobj
    have hfind : s.appointments.find? (fun a => a.id == pk) = some appt :=
      find_id_eq_some hids hmem hid
    have h1 : statusOf s pk = some Status.pending := by
      unfold statusOf; rw [hfind]; simp [hst]
    refine ⟨h1, ?_⟩
    rw [hs', statusOf_setStatus, h1]
    rfl
  · intro s' h
    obtain ⟨appt, hobj, _, _, hst, hs'⟩ := complete_ok_elim h
    obtain ⟨hmem, hid⟩ := getAppointmentObject_mem hobj
    have hfind : s.appointments.find? (fun a => a.id == pk) = some appt :=
      find_id_eq_some hids hmem hid
    have h1 : statusOf s pk = some Status.confirmed := by
      unfold statusOf; rw [hfind]; simp [hst]
    refine ⟨h1, ?_⟩
    rw [hs', statusOf_setStatus, h1]
    rfl
  · intro s' h
    obtain ⟨appt, hobj, _, hst, _, hs'⟩ := cancel_ok_elim h
    obtain ⟨hmem, hid⟩ := getAppointmentObject_mem hobj
    have hfind : s.appointments.find? (fun a => a.id == pk) = some appt :=
      find_id_eq_some hids hmem hid
    have h1 : statusOf s pk = some appt.status := by
      unfold statusOf; rw [hfind]; rfl
    constructor
    · rcases hst with h2 | h2
      · exact Or.inl (by rw [h1, h2])
      · exact Or.inr (by rw [h1, h2])
    · rw [hs', statusOf_setStatus, h1]
      rfl
  · intro a hmem hid
    refine ⟨?_, ?_, ?_⟩
    · intro hrole hown hnst
      have hobj : getAppointmentObject s actor pk = some a :=
        getAppointmentObject_eq_some hids hmem hid (Or.inr (Or.inl ⟨hrole, hown⟩))
      have heq : confirm s actor pk now =
          (if !actor.is_doctor || a.doctor != actor.id then
            Except.error Err.forbidden
          else if a.status != Status.pending then
            Except.error Err.invalidTransition
          else Except.ok (setStatus s pk Status.confirmed now)) := by
        unfold confirm; rw [hobj]
      rw [heq, if_neg (by simp [User.is_doctor, hrole, hown]),
        if_pos (by simp [hnst])]
    · intro hrole hown hnst
      have hobj : getAppointmentObject s actor pk = some a :=
        getAppointmentObject_eq_some hids hmem hid (Or.inr (Or.inl ⟨hrole, hown⟩))
      have heq : complete s actor pk now =
          (if !actor.is_doctor || a.doctor != actor.id then
            Except.error Err.forbidden
          else if a.status != Status.confirmed then
            Except.error Err.invalidTransition
          else Except.ok (setStatus s pk Status.completed now)) := by
        unfold complete; rw [hobj]
      rw [heq, if_neg (by simp [User.is_doctor, hrole, hown]),
        if_pos (by simp [hnst])]
    · intro hpr hdr hperm hnp hnc
      have hscope : actor.role = Role.admin ∨
          (actor.role = Role.doctor ∧ a.doctor = actor.id) ∨
          (actor.role = Role.patient ∧ a.patient = actor.id) := by
        rcases hperm with h | h | h
        · exact Or.inr (Or.inr ⟨hpr h, h.symm⟩)
        · exact Or.inr (Or.inl ⟨hdr h, h.symm⟩)
        · exact Or.inl h
      have hobj := getAppointmentObject_eq_some hids hmem hid hscope
      have heq : cancel s actor pk now =
          (if !(actor.id == a.patient || actor.id == a.doctor || actor.is_admin)
            then Except.error Err.forbidden
          else if !a.can_be_cancelled now then
            Except.error Err.invalidTransition
          else Except.ok (setStatus s pk Status.cancelled now)) := by
        unfold cancel; rw [hobj]
      have hpb : (actor.id == a.patient || actor.id == a.doctor ||
          actor.is_admin) = true := by
        rcases hperm with h | h | h
        · simp [h]
        · simp [h]
        · simp [User.is_admin, h]
      have hcb : a.can_be_cancelled now = false := by
        unfold Appointment.can_be_cancelled
        rw [beq_eq_false_iff_ne.mpr hnp, beq_eq_false_iff_ne.mpr hnc]
        rfl
      rw [heq, if_neg (by simp [hpb]), if_pos (by simp [hcb])]

/-- Witness for C2: bob confirms the concrete pending appointment; the
status moves from pending to confirmed. -/
theorem appointment_status_transitions_witness :
    statusOf storeWithPending 1 = some Status.pending ∧
    statusOf (setStatus storeWithPending 1 Status.confirmed 50) 1 =
      some Status.confirmed :=
  (appointment_status_transitions storeWithPending bob 1 50 (by decide)).1
    (setStatus storeWithPending 1 Status.confirmed 50) rfl

/-- C4 counterexample: the appointment viewset inherits the generic destroy
endpoint, so DELETE is routed: alice deletes her own pending appointment and
the appointment table shrinks — appointments are not never-deleted. -/
theorem appointment_destroy_deletes :
    destroyAppointment storeWithPending alice 1 =
      .ok { storeWithPending with appointments := [] } ∧
    storeWithPending.appointments ≠ [] :=
  ⟨rfl, by decide⟩

/-- C4 amended: although the inherited destroy endpoint can delete
appointments, the three status actions never touch a terminal appointment:
any completed or cancelled row survives every successful confirm, complete
or cancel unchanged. -/
theorem terminal_status_preserved (s : Store) (actor : User) (pk : Nat)
    (now : Int) (a : Appointment) (s' : Store)
    (hids : (s.appointments.map (fun x => x.id)).Nodup)
    (ha : a ∈ s.appointments)
    (hterm : a.status = Status.completed ∨ a.status = Status.cancelled)
    (hop : confirm s actor pk now = .ok s' ∨ complete s actor pk now = .ok s' ∨
      cancel s actor pk now = .ok s') :
    a ∈ s'.appointments := by
  have key : ∀ (appt : Appointment) (st : Status),
      getAppointmentObject s actor pk = some appt →
      (appt.status = Status.pending ∨ appt.status = Status.confirmed) →
      s' = setStatus s pk st now → a ∈ s'.appointments := by
    intro appt st hobj hpc hs'
    obtain ⟨hmem, hid⟩ := getAppointmentObject_mem hobj
    by_cases hne : a.id = pk
    · have hae : a = appt :=
        List.inj_on_of_nodup_map hids ha hmem (by rw [hne, hid])
      subst hae
      rcases hterm with ht | ht <;> rcases hpc with hp | hp <;> simp [ht] at hp
    · exact hs' ▸ setStatus_mem_of_ne ha hne
  rcases hop with h | h | h
  · obtain ⟨appt, hobj, _, _, hst, hs'⟩ := confirm_ok_elim h
    exact key appt _ hobj (Or.inl hst) hs'
  · obtain ⟨appt, hobj, _, _, hst, hs'⟩ := complete_ok_elim h
    exact key appt _ hobj (Or.inr hst) hs'
  · obtain ⟨appt, hobj, _, hst, _, hs'⟩ := cancel_ok_elim h
    exact key appt _ hobj hst hs'

/-- Witness for C4 amended: the completed appointment survives bob
confirming the other, pending appointment of the same store. -/
theorem terminal_status_preserved_witness :
    apptDone ∈ (setStatus mixedStore 1 Status.confirmed 50).appointments :=
  terminal_status_preserved mixedStore bob 1 50 apptDone
    (setStatus mixedStore 1 Status.confirmed 50) (by decide) (by decide)
    (Or.inl rfl) (Or.inl rfl)

/-- C5: for an appointment present in the store (with well-typed role
references for the acting user), cancel succeeds if and only if the actor is
the appointments patient, its assigned doctor, or an admin, and the status
is pending or confirmed, and the date_time is still in the future; failures
perform no write. -/
theorem cancel_success_iff (s : Store) (actor : User) (pk : Nat) (now : Int)
    (appt : Appointment)
    (hids : (s.appointments.map (fun a => a.id)).Nodup)
    (hmem : appt ∈ s.appointments) (hpk : appt.id = pk)
    (hpr : actor.id = appt.patient → actor.role = Role.patient)
    (hdr : actor.id = appt.doctor → actor.role = Role.doctor) :
    (∃ s', cancel s actor pk now = .ok s') ↔
      ((actor.id = appt.patient ∨ actor.id = appt.doctor ∨
        actor.role = Role.admin) ∧
       (appt.status = Status.pending ∨ appt.status = Status.confirmed) ∧
       now < appt.date_time) := by
  constructor
  · rintro ⟨s', h⟩
    obtain ⟨b, hobj, hperm, hst, htime, _⟩ := cancel_ok_elim h
    obtain ⟨hbmem, hbid⟩ := getAppointmentObject_mem hobj
    have hba : b = appt :=
      List.inj_on_of_nodup_map hids hbmem hmem (by rw [hbid, hpk])
    subst hba
    refine ⟨?_, hst, htime⟩
    rcases hperm with h | h | h
    · exact Or.inl h
    · exact Or.inr (Or.inl h)
    · right; right; simpa [User.is_admin] using h
  · rintro ⟨hperm, hst, htime⟩
    have hscope : actor.role = Role.admin ∨
        (actor.role = Role.doctor ∧ appt.doctor = actor.id) ∨
        (actor.role = Role.patient ∧ appt.patient = actor.id) := by
      rcases hperm with h | h | h
      · exact Or.inr (Or.inr ⟨hpr h, h.symm⟩)
      · exact Or.inr (Or.inl ⟨hdr h, h.symm⟩)
      · exact Or.inl h
    have hobj := getAppointmentObject_eq_some hids hmem hpk hscope
    have heq : cancel s actor pk now =
        (if !(actor.id == appt.patient || actor.id == appt.doctor ||
            actor.is_admin) then Except.error Err.forbidden
        else if !appt.can_be_cancelled now then
          Except.error Err.invalidTransition
        else Except.ok (setStatus s pk Status.cancelled now)) := by
      unfold cancel; rw [hobj]
    have hpb : (actor.id == appt.patient || actor.id == appt.doctor ||
        actor.is_admin) = true := by
      rcases hperm with h | h | h
      · simp [h]
      · simp [h]
      · simp [User.is_admin, h]
    have hcb : appt.can_be_cancelled now = true := by
      unfold Appointment.can_be_cancelled Appointment.is_upcoming
      rcases hst with h | h <;> simp [h, htime]
    refine ⟨setStatus s pk Status.cancelled now, ?_⟩
    rw [heq, if_neg (by simp [hpb]), if_neg (by simp [hcb])]

/-- Witness for C5: alice can cancel her future pending appointment at time
50, and the very same appointment cannot be cancelled once the clock has
passed its date_time (time 200), even though it is still pending. -/
theorem cancel_success_iff_witness :
    (∃ s', cancel storeWithPending alice 1 50 = .ok s') ∧
    ¬(∃ s', cancel storeWithPending alice 1 200 = .ok s') :=
  ⟨(cancel_success_iff storeWithPending alice 1 50 appt1 (by decide) (by decide)
      rfl (fun _ => rfl) (fun h => absurd h (by decide))).mpr
      ⟨Or.inl rfl, Or.inl rfl, by decide⟩,
   fun hex => absurd
     ((cancel_success_iff storeWithPending alice 1 200 appt1 (by decide)
        (by decide) rfl (fun _ => rfl) (fun h => absurd h (by decide))).mp
        hex).2.2 (by decide)⟩

/-- C10: a successful confirm, complete or cancel leaves users, records and
profiles untouched, preserves the number of appointments, keeps every other
appointment row identical, and rewrites the target row only in its status
and updated_at fields (patient, doctor, date_time, reason, notes and
created_at are carried over unchanged). -/
theorem status_action_frame (s : Store) (actor : User) (pk : Nat) (now : Int)
    (s' : Store)
    (hop : confirm s actor pk now = .ok s' ∨ complete s actor pk now = .ok s' ∨
      cancel s actor pk now = .ok s') :
    s'.users = s.users ∧ s'.records = s.records ∧ s'.profiles = s.profiles ∧
    s'.appointments.length = s.appointments.length ∧
    ∀ a ∈ s.appointments,
      (a.id ≠ pk → a ∈ s'.appointments) ∧
      (a.id = pk → ∃ st,
        ({ a with status := st, updated_at := now } : Appointment) ∈
          s'.appointments) := by
  have key : ∀ st : Status, s' = setStatus s pk st now →
      s'.users = s.users ∧ s'.records = s.records ∧ s'.profiles = s.profiles ∧
      s'.appointments.length = s.appointments.length ∧
      ∀ a ∈ s.appointments,
        (a.id ≠ pk → a ∈ s'.appointments) ∧
        (a.id = pk → ∃ st2,
          ({ a with status := st2, updated_at := now } : Appointment) ∈
            s'.appointments) := by
    intro st hs'
    subst hs'
    refine ⟨rfl, rfl, rfl, setStatus_length s pk st now, ?_⟩
    intro a ha
    exact ⟨fun hne => setStatus_mem_of_ne ha hne,
      fun heq => ⟨st, setStatus_mem_of_eq ha heq⟩⟩
  rcases hop with h | h | h
  · obtain ⟨_, _, _, _, _, hs'⟩ := confirm_ok_elim h
    exact key _ hs'
  · obtain ⟨_, _, _, _, _, hs'⟩ := complete_ok_elim h
    exact key _ hs'
  · obtain ⟨_, _, _, _, _, hs'⟩ := cancel_ok_elim h
    exact key _ hs'

/-- Witness for C10: after bob confirms the pending appointment of the
mixed store, the user table is unchanged, the completed appointment is
still present, and the target row differs only in status and updated_at. -/
theorem status_action_frame_witness :
    (setStatus mixedStore 1 Status.confirmed 50).users = mixedStore.users ∧
    apptDone ∈ (setStatus mixedStore 1 Status.confirmed 50).appointments ∧
    (∃ st, ({ appt1 with status := st, updated_at := 50 } : Appointment) ∈
      (setStatus mixedStore 1 Status.confirmed 50).appointments) :=
  ⟨(status_action_frame mixedStore bob 1 50
      (setStatus mixedStore 1 Status.confirmed 50) (Or.inl rfl)).1,
   ((status_action_frame mixedStore bob 1 50
      (setStatus mixedStore 1 Status.confirmed 50) (Or.inl rfl)).2.2.2.2
      apptDone (by decide)).1 (by decide),
   ((status_action_frame mixedStore bob 1 50
      (setStatus mixedStore 1 Status.confirmed 50) (Or.inl rfl)).2.2.2.2
      appt1 (by decide)).2 rfl⟩
